import Mathlib

/-
  Verification of the TT-vol-workflows market-data streaming and
  risk-derivation pipeline (src/websocket_streamer.py, src/risk_fx.py).

  Pure Python functions are translated into executable Lean functions.
  Python floats are modelled as rationals; the pandas NaN / missing-value
  convention is modelled with Option (a missing operand makes the result
  missing), following the spec's own modelling note that the numeric
  "silent NaN on failure" convention is to be modelled as an optional
  value type.  Python dicts are modelled as association lists in
  insertion order, and raised exceptions as Except values.
-/

set_option autoImplicit false

deriving instance DecidableEq for Except

namespace TTVol

/-! ## SubscriptionTracker (MarketDataWebSocket.symbols_to_track)

The Python client keeps a dict mapping each requested streamer symbol to
a received flag.  A dict with boolean values is modelled as a list of
pairs whose keys are deduplicated keeping the first occurrence (Python
dict-comprehension semantics, insertion order). -/

/-- Helper for uniqueFirst: drops the elements already seen. -/
def uniqueFirstAux {α : Type} [DecidableEq α] : List α → List α → List α
  | _seen, [] => []
  | seen, a :: rest =>
      if a ∈ seen then uniqueFirstAux seen rest
      else a :: uniqueFirstAux (a :: seen) rest

/-- Deduplicate a list keeping the first occurrence of each element,
preserving order; models the key set of a Python dict comprehension and
the order-preserving pandas Series.unique. -/
def uniqueFirst {α : Type} [DecidableEq α] (l : List α) : List α :=
  uniqueFirstAux [] l

/-- Translation of MarketDataWebSocket.set_symbols_to_track: builds the
dict mapping each requested symbol to False. -/
def set_symbols_to_track (symbols : List String) : List (String × Bool) :=
  (uniqueFirst symbols).map (fun s => (s, false))

/-- Translation of the per-symbol marking step inside
MarketDataWebSocket.on_message: if the symbol is a key of
symbols_to_track, its flag is set to True, otherwise the dict is left
unchanged. -/
def markReceived (st : List (String × Bool)) (s : String) : List (String × Bool) :=
  if st.any (fun p => p.1 = s) then
    st.map (fun p => if p.1 = s then (p.1, true) else p)
  else st

/-- Translation of MarketDataWebSocket.check_all_data_received:
all(self.symbols_to_track.values()). -/
def check_all_data_received (st : List (String × Bool)) : Bool :=
  st.all (fun p => p.2)

/-- Symbols extracted from a FEED_DATA market_data list: the elements at
indices 1, 7, 13, ... (Python range(1, len(market_data), 6)). -/
def quoteSymbols : List String → List String
  | _e0 :: e1 :: _e2 :: _e3 :: _e4 :: _e5 :: rest => e1 :: quoteSymbols rest
  | _e0 :: e1 :: _ => [e1]
  | _ => []

/-- Processing of one FEED_DATA Quote event by on_message: every symbol
at a symbol position of the flat payload is marked received. -/
def processFeedData (st : List (String × Bool)) (market_data : List String) :
    List (String × Bool) :=
  (quoteSymbols market_data).foldl markReceived st

/-! ## QuoteDecoder (MarketDataProcessor.parse_market_data)

The flat payload of one FEED_DATA message is decoded in strides of 6
(eventType2, streamer-symbol, bidPrice, askPrice, bidSize, askSize),
each prefixed by the feed type of the envelope; a trailing partial
stride is dropped.  The resulting rows are deduplicated on
streamer-symbol keeping the last occurrence (pandas
drop_duplicates(subset, keep=last) preserves the order of the kept
rows). -/

structure QuoteRow (α : Type) where
  eventType : String
  eventType2 : α
  symbol : α
  bidPrice : α
  askPrice : α
  bidSize : α
  askSize : α
deriving DecidableEq

/-- Translation of the per-item stride loop of parse_market_data:
for i in range(0, len(market_data), 6), a row is appended only when
i + 5 < len(market_data), i.e. for each complete 6-element stride. -/
def parseItem {α : Type} (feed_type : String) : List α → List (QuoteRow α)
  | a :: b :: c :: d :: e :: f :: rest =>
      ⟨feed_type, a, b, c, d, e, f⟩ :: parseItem feed_type rest
  | _ => []

/-- Translation of DataFrame.drop_duplicates(subset=streamer-symbol,
keep=last): a row is kept iff no later row has the same symbol. -/
def drop_duplicates_keep_last {α : Type} [DecidableEq α] :
    List (QuoteRow α) → List (QuoteRow α)
  | [] => []
  | r :: rest =>
      if rest.any (fun t => t.symbol = r.symbol) then drop_duplicates_keep_last rest
      else r :: drop_duplicates_keep_last rest

/-- Translation of MarketDataProcessor.parse_market_data on the
received_data list of (feed_type, market_data) pairs. -/
def parse_market_data {α : Type} [DecidableEq α]
    (received_data : List (String × List α)) : List (QuoteRow α) :=
  drop_duplicates_keep_last ((received_data.map (fun it => parseItem it.1 it.2)).flatten)

/-! ## StreamSession (MarketDataWebSocket.on_message)

Inbound messages are modelled by their type tag and the fields the
handler inspects; outbound control messages and the close call are
modelled as an output alphabet.  The handler runs single-threaded per
connection; once ws.close() has been called no further messages are
delivered. -/

inductive Msg
  | authState (state : String)
  | channelOpened (channel : Nat)
  | feedConfig (channel : Nat)
  | feedData (channel : Nat) (feed_type : String) (market_data : List String)
  | keepalive
deriving DecidableEq

inductive Out
  | setupMsg
  | authMsg
  | channelRequestMsg
  | feedSetupMsg
  | feedSubscriptionMsg
  | closeCall
deriving DecidableEq

structure WSState where
  channel_number : Nat
  symbols_to_track : List (String × Bool)
  received_data : List (String × List String)
  closed : Bool
deriving DecidableEq

/-- Initial client state after set_symbols_to_track, before any message
arrives. -/
def mkClient (channel_number : Nat) (symbols : List String) : WSState :=
  ⟨channel_number, set_symbols_to_track symbols, [], false⟩

/-- Translation of MarketDataWebSocket.on_message: the if and elif chain
dispatching on the message type.  A FEED_DATA message for the session
channel is appended to received_data, its Quote symbols are marked, and
ws.close() is called when check_all_data_received holds. -/
def on_message (st : WSState) (m : Msg) : WSState × List Out :=
  match m with
  | .authState s =>
      if s = "UNAUTHORIZED" then (st, [.authMsg])
      else if s = "AUTHORIZED" then (st, [.channelRequestMsg])
      else (st, [])
  | .channelOpened ch =>
      if ch = st.channel_number then (st, [.feedSetupMsg]) else (st, [])
  | .feedConfig ch =>
      if ch = st.channel_number then (st, [.feedSubscriptionMsg]) else (st, [])
  | .feedData ch ft md =>
      if ch = st.channel_number then
        let st1 := { st with received_data := st.received_data ++ [(ft, md)] }
        let st2 :=
          if ft = "Quote" then
            { st1 with symbols_to_track := processFeedData st1.symbols_to_track md }
          else st1
        if check_all_data_received st2.symbols_to_track then
          ({ st2 with closed := true }, [.closeCall])
        else (st2, [])
      else (st, [])
  | .keepalive => (st, [])

/-- One streaming connection: inbound messages are delivered in order;
after ws.close() the callback no longer fires. -/
def runSession (st : WSState) : List Msg → WSState × List Out
  | [] => (st, [])
  | m :: ms =>
      if st.closed then (st, [])
      else
        let r := on_message st m
        let rest := runSession r.1 ms
        (rest.1, r.2 ++ rest.2)

def isUnauthorizedMsg : Msg → Bool
  | .authState s => s = "UNAUTHORIZED"
  | _ => false

def isFeedDataFor (cn : Nat) : Msg → Bool
  | .feedData ch _ _ => ch = cn
  | _ => false

/-! ## BSM numerics (risk_fx.py)

The pricing code composes the external numeric primitives np.log,
np.sqrt, np.exp and scipy.stats.norm.cdf; the composition structure is
the repository's code, the primitives are library functions, so they are
carried as an abstract parameter record of rational functions.  A raised
ValueError is an Except.error value. -/

structure Prims where
  log : ℚ → ℚ
  sqrt : ℚ → ℚ
  exp : ℚ → ℚ
  cdf : ℚ → ℚ

namespace BSM

/-- Translation of BSM.price: d1 and d2 as in the source, then the call
branch, the put branch, and the ValueError branch for any other
option_type string. -/
def price (P : Prims) (S K T r sigma : ℚ) (option_type : String) : Except String ℚ :=
  let d1 := (P.log (S / K) + (r + sigma ^ 2 / 2) * T) / (sigma * P.sqrt T)
  let d2 := d1 - sigma * P.sqrt T
  if option_type = "call" then
    .ok (S * P.cdf d1 - K * P.exp (-(r * T)) * P.cdf d2)
  else if option_type = "put" then
    .ok (K * P.exp (-(r * T)) * P.cdf (-d2) - S * P.cdf (-d1))
  else .error "ValueError: Invalid option type. Use call or put."

/-- Translation of BSM.delta: the call branch is the cdf of d1, the put
branch subtracts one, any other option_type raises ValueError. -/
def delta (P : Prims) (S K T r sigma : ℚ) (option_type : String) : Except String ℚ :=
  let d1 := (P.log (S / K) + (r + sigma ^ 2 / 2) * T) / (sigma * P.sqrt T)
  if option_type = "call" then .ok (P.cdf d1)
  else if option_type = "put" then .ok (P.cdf d1 - 1)
  else .error "ValueError: Invalid option type. Use call or put."

/-- Interval-bisection kernel of the root-finder model: keeps the
bracketing invariant by choosing the half interval across which the
objective changes sign, and returns the midpoint once the fuel is
exhausted.  An error raised by the objective propagates. -/
def bisect (f : ℚ → Except String ℚ) : Nat → ℚ → ℚ → Except String ℚ
  | 0, a, b => .ok ((a + b) / 2)
  | n + 1, a, b => do
      let m := (a + b) / 2
      let fa ← f a
      let fm ← f m
      if fa * fm ≤ 0 then bisect f n a m else bisect f n m b

/-- Modelled from the spec: scipy.optimize.brentq is an external library
routine, not part of this repository.  Per the spec, implied volatility
is solved by root-finding over the bracket with tolerance 1e-6, and the
finder raises ValueError exactly when no sign change exists in the
bracket.  The search itself is modelled as interval bisection with
enough iterations (25 halvings of a unit bracket) to land within the
1e-6 tolerance; an exception raised by the objective propagates through
the finder, as in Python. -/
def brentq (f : ℚ → Except String ℚ) (a b : ℚ) : Except String ℚ := do
  let fa ← f a
  let fb ← f b
  if fa * fb > 0 then
    .error "ValueError: f a and f b must have different signs"
  else bisect f 25 a b

/-- Objective function closed over by BSM.implied_volatility:
price(sigma) minus the observed option price. -/
def objective (P : Prims) (option_price S K T r : ℚ) (option_type : String)
    (sigma : ℚ) : Except String ℚ :=
  (price P S K T r sigma option_type).map (fun v => v - option_price)

/-- Translation of BSM.implied_volatility: brentq on the objective over
the bracket (1e-6, 1), catching ValueError as NaN.  Missing (NaN)
operands are modelled as Option.none: with a NaN option price or
underlying, the objective is NaN everywhere, the root-finder cannot
bracket a sign change, and the except path yields NaN, i.e. a missing
result. -/
def implied_volatility (P : Prims) (option_price S : Option ℚ) (K T r : ℚ)
    (option_type : String) : Option ℚ :=
  match option_price, S with
  | some m, some s =>
      match brentq (objective P m s K T r option_type) (1 / 1000000) 1 with
      | .ok v => some v
      | .error _ => none
  | _, _ => none

/-- Application of BSM.delta to possibly-missing (NaN) sigma and
underlying, as OptionDataProcessor.calculate_delta does: a NaN operand
poisons d1 and the cdf, giving NaN (missing) delta, except that an
invalid option_type still raises ValueError. -/
def deltaMissing (P : Prims) (S : Option ℚ) (K T r : ℚ) (sigma : Option ℚ)
    (option_type : String) : Except String (Option ℚ) :=
  match S, sigma with
  | some s, some sg => (delta P s K T r sg option_type).map some
  | _, _ =>
      if option_type = "call" ∨ option_type = "put" then .ok none
      else .error "ValueError: Invalid option type. Use call or put."

end BSM

/-- Round-half-to-even of a rational to an integer, the semantics of
numpy and pandas round. -/
def halfEvenInt (x : ℚ) : ℤ :=
  let f := ⌊x⌋
  if x - f < 1 / 2 then f
  else if x - f > 1 / 2 then f + 1
  else if f % 2 = 0 then f else f + 1

/-- Round to d decimal places, half to even (pandas Series.round). -/
def roundTo (d : Nat) (x : ℚ) : ℚ :=
  (halfEvenInt (x * 10 ^ d) : ℚ) / 10 ^ d

/-- Marker test selecting the pricing branch in risk_fx.py:
a C among the last ten characters of the trading symbol means call,
anything else means put. -/
def containsCmarker (sym : String) : Bool :=
  ((sym.toList.drop (sym.toList.length - 10)).contains 'C')

def optionTypeOf (sym : String) : String :=
  if containsCmarker sym then "call" else "put"

/-! ## InventoryJoinEngine and risk pipeline rows

A joined inventory row carries the fields the pipeline reads.  Raw
bid/ask/quantity cells are either numeric, a non-numeric string, or a
null, and pd.to_numeric with errors=coerce maps the latter two to NaN
(missing), never to zero. -/

inductive RawVal
  | num (q : ℚ)
  | str (s : String)
  | null
deriving DecidableEq

/-- Translation of pd.to_numeric(column, errors=coerce): numeric values
pass through, nulls and values that fail to parse as a number become
NaN, i.e. missing (a string that does parse as a number is modelled as
already numeric). -/
def to_numeric : RawVal → Option ℚ
  | .num q => some q
  | .str _ => none
  | .null => none

structure JoinedRow where
  symbol : String
  underlying_symbol : String
  instrument_type : String
  quantity_direction : String
  quantity : RawVal
  contract_size : RawVal
  strike_price : ℚ
  T : ℚ
  bidPrice : RawVal
  askPrice : RawVal
  bidPrice_future : RawVal
  askPrice_future : RawVal
deriving DecidableEq

/-- Mid price of one leg, (bid + ask) / 2: NaN on either side poisons
the sum, so the mid is missing when either side is missing. -/
def midPrice (bid ask : Option ℚ) : Option ℚ :=
  match bid, ask with
  | some b, some a => some ((b + a) / 2)
  | _, _ => none

/-- Translation of calculate_mid_prices for the option leg, after
convert_columns_to_numeric. -/
def mid_option (r : JoinedRow) : Option ℚ :=
  midPrice (to_numeric r.bidPrice) (to_numeric r.askPrice)

/-- Translation of calculate_mid_prices for the future leg. -/
def mid_future (r : JoinedRow) : Option ℚ :=
  midPrice (to_numeric r.bidPrice_future) (to_numeric r.askPrice_future)

/-- Risk-free rate constant of risk_fx.py. -/
def RISK_FREE_RATE : ℚ := 0

namespace OptionDataProcessor

/-- Raw root of the per-row implied-volatility solve of
calculate_implied_volatility, before the percentage conversion. -/
def iv_raw (P : Prims) (r : JoinedRow) : Option ℚ :=
  BSM.implied_volatility P (mid_option r) (mid_future r) r.strike_price r.T
    RISK_FREE_RATE (optionTypeOf r.symbol)

/-- Stored implied-volatility column: the root times 100, rounded to one
decimal place (PRECISION_VOLATILITY); NaN stays NaN. -/
def implied_volatility_pct (P : Prims) (r : JoinedRow) : Option ℚ :=
  (iv_raw P r).map (fun v => roundTo 1 (v * 100))

/-- The per-row apply over the whole frame in
calculate_implied_volatility. -/
def calculate_implied_volatility (P : Prims) (rows : List JoinedRow) :
    List (Option ℚ) :=
  rows.map (implied_volatility_pct P)

/-- Translation of calculate_delta for one row: BSM.delta on the future
mid, the strike, T, r = 0 and the stored implied volatility divided by
100, rounded to two decimal places (PRECISION_DELTA); NaN stays NaN. -/
def delta_row (P : Prims) (r : JoinedRow) : Except String (Option ℚ) :=
  (BSM.deltaMissing P (mid_future r) r.strike_price r.T RISK_FREE_RATE
      ((implied_volatility_pct P r).map (fun v => v / 100))
      (optionTypeOf r.symbol)).map
    (fun od => od.map (roundTo 2))

/-- Translation of calculate_pos_delta, applied to the Future Option
rows of the filtered frame: the signed delta by quantity direction, zero
for anything else. -/
def pos_delta (P : Prims) (r : JoinedRow) : Except String (Option ℚ) := do
  let d ← delta_row P r
  if r.instrument_type = "Future Option" ∧ r.quantity_direction = "Long" then pure d
  else if r.instrument_type = "Future Option" ∧ r.quantity_direction = "Short" then
    pure (d.map (fun x => -x))
  else pure (some 0)

/-- The pos_delta column after merge_with_original and
assign_pos_delta_for_futures: Future rows carry unit delta by direction,
Future Option rows carry the computed pos_delta, any other rows never
went through the filtered frame so their pos_delta cell is missing. -/
def pos_delta_merged (P : Prims) (r : JoinedRow) : Except String (Option ℚ) :=
  if r.instrument_type = "Future" then
    .ok (some (if r.quantity_direction = "Long" then 1 else -1))
  else if r.instrument_type = "Future Option" then pos_delta P r
  else .ok none

/-- Translation of calculate_bc_delta: pos_delta times quantity times
contract size, with quantity and contract size coerced to numeric; a
missing factor gives a missing product. -/
def bc_delta (P : Prims) (r : JoinedRow) : Except String (Option ℚ) := do
  let pdel ← pos_delta_merged P r
  pure (match pdel, to_numeric r.quantity, to_numeric r.contract_size with
        | some p, some q, some c => some (p * q * c)
        | _, _, _ => none)

/-- Word character test of the regex class backslash-w. -/
def isWordChar (c : Char) : Bool := c.isAlphanum || c = '_'

/-- Translation of the regex search in assign_ccy: the first position
where a 6 is followed by a word character yields those two characters;
no match yields NaN (missing). -/
def extractCcy : List Char → Option String
  | [] => none
  | c :: rest =>
      if c = '6' then
        match rest with
        | d :: _ => if isWordChar d then some (String.mk [c, d]) else extractCcy rest
        | [] => none
      else extractCcy rest

def assign_ccy (r : JoinedRow) : Option String :=
  extractCcy r.underlying_symbol.toList

/-- Total bc_delta of one currency group in summarize_bc_delta_by_ccy:
pandas groupby sum skips missing values (skipna), so a row whose
bc_delta is missing contributes nothing to its group total, and a row of
another currency belongs to another group. -/
def ccy_total (P : Prims) (rows : List JoinedRow) (c : String) : Except String ℚ :=
  match rows with
  | [] => .ok 0
  | r :: rest => do
      let b ← bc_delta P r
      let t ← ccy_total P rest c
      if assign_ccy r = some c then
        match b with
        | some v => pure (t + v)
        | none => pure t
      else pure t

end OptionDataProcessor

/-- Translation of get_streamer_symbols: the streamer-symbol and
option-streamer-symbol columns are each deduplicated (Series.unique),
concatenated, and filtered by Python truthiness and the literal string
None: a null cell and the empty string are falsy and dropped, the
string None is dropped explicitly. -/
def get_streamer_symbols (streamer_syms option_streamer_syms : List (Option String)) :
    List String :=
  (uniqueFirst streamer_syms ++ uniqueFirst option_streamer_syms).filterMap
    (fun o => match o with
      | none => none
      | some s => if s ≠ "" ∧ s ≠ "None" then some s else none)

/-- Boolean test for the failure condition of the bracketing
root-finder: both endpoint evaluations succeed and have the same strict
sign, so no sign change exists in the bracket. -/
def noSignChange (f : ℚ → Except String ℚ) (a b : ℚ) : Bool :=
  match f a, f b with
  | .ok fa, .ok fb => decide (fa * fb > 0)
  | _, _ => false

/-- Modelled from the spec: the delta formula as the spec states it —
the cdf of d1 for calls and the cdf of d1 minus one for puts, with
d1 = (ln(F/K) + 0.5 sigma^2 T)/(sigma sqrt T), at a given sigma. -/
def specDelta (P : Prims) (F K T sigma : ℚ) (isCall : Bool) : ℚ :=
  let d1 := (P.log (F / K) + (sigma ^ 2 / 2) * T) / (sigma * P.sqrt T)
  if isCall then P.cdf d1 else P.cdf d1 - 1

/-! ### Concrete instances for witnesses and counterexamples -/

/-- Primitive record with a constantly-zero cdf: the pricing formula
collapses to zero, so the objective cannot change sign when the observed
price is nonzero. -/
def P1 : Prims := ⟨fun _ => 0, fun _ => 1, fun _ => 1, fun _ => 0⟩

def rowW : JoinedRow :=
  { symbol := "XP", underlying_symbol := "6EU4", instrument_type := "Future Option",
    quantity_direction := "Long", quantity := .num 1, contract_size := .num 125000,
    strike_price := 1, T := 1, bidPrice := .num 1, askPrice := .num 1,
    bidPrice_future := .num 1, askPrice_future := .num 1 }

/-- Primitive record for the delta counterexample: log of a unit ratio
is zero, a unit sqrt and exp, and an affine cdf; with F = K = 1 and
T = 1 the call price under these primitives is exactly sigma, so the
root-finder solves to the observed mid. -/
def P0 : Prims := ⟨fun _ => 0, fun _ => 1, fun _ => 1, fun x => x + 339995 / 1000000⟩

def row0 : JoinedRow :=
  { symbol := "XC", underlying_symbol := "6EU4", instrument_type := "Future Option",
    quantity_direction := "Long", quantity := .num 1, contract_size := .num 125000,
    strike_price := 1, T := 1, bidPrice := .num (13002 / 100000),
    askPrice := .num (13002 / 100000), bidPrice_future := .num 1,
    askPrice_future := .num 1 }

def row1 : JoinedRow :=
  { symbol := "./EUUZ24 EUU4 240906P1.12", underlying_symbol := "/6EU4",
    instrument_type := "Future Option", quantity_direction := "Long",
    quantity := .num 1, contract_size := .num 125000,
    strike_price := 112 / 100, T := 1 / 4, bidPrice := .null,
    askPrice := .num (5 / 100), bidPrice_future := .num (110 / 100),
    askPrice_future := .num (110 / 100) }

/-! ### Tracker lemmas -/

theorem markReceived_eq_map (st : List (String × Bool)) (s : String) :
    markReceived st s = st.map (fun p => if p.1 = s then (p.1, true) else p) := by
  unfold markReceived
  by_cases h : st.any (fun p => p.1 = s)
  · simp [h]
  · simp only [h, Bool.false_eq_true, if_false]
    have h' : ∀ p ∈ st, ¬ p.1 = s := by
      intro p hp hc
      exact h (List.any_eq_true.mpr ⟨p, hp, by simp [hc]⟩)
    have hfix : ∀ p ∈ st, (if p.1 = s then (p.1, true) else p) = p := by
      intro p hp
      simp [h' p hp]
    calc st = st.map id := (List.map_id st).symm
      _ = st.map (fun p => if p.1 = s then (p.1, true) else p) := by
            apply List.map_congr_left
            intro p hp
            exact (hfix p hp).symm

theorem foldl_markReceived (st : List (String × Bool)) (ms : List String) :
    ms.foldl markReceived st
      = st.map (fun p => (p.1, p.2 || decide (p.1 ∈ ms))) := by
  induction ms generalizing st with
  | nil =>
    simp only [List.foldl_nil, List.not_mem_nil, decide_False, Bool.or_false]
    have hid : (fun (p : String × Bool) => (p.1, p.2)) = id := rfl
    rw [hid, List.map_id]
  | cons m ms ih =>
    simp only [List.foldl_cons]
    rw [ih, markReceived_eq_map, List.map_map]
    apply List.map_congr_left
    intro p _
    by_cases h : p.1 = m
    · simp [h, List.mem_cons]
    · simp [h, Function.comp, List.mem_cons]

theorem mem_uniqueFirstAux {α : Type} [DecidableEq α] :
    ∀ (l seen : List α) (s : α), s ∈ uniqueFirstAux seen l ↔ (s ∈ l ∧ s ∉ seen) := by
  intro l
  induction l with
  | nil => intro seen s; simp [uniqueFirstAux]
  | cons a rest ih =>
    intro seen s
    unfold uniqueFirstAux
    by_cases ha : a ∈ seen
    · rw [if_pos ha, ih]
      simp only [List.mem_cons]
      constructor
      · rintro ⟨h1, h2⟩; exact ⟨Or.inr h1, h2⟩
      · rintro ⟨rfl | h1, h2⟩
        · exact absurd ha h2
        · exact ⟨h1, h2⟩
    · rw [if_neg ha]
      simp only [List.mem_cons, ih]
      constructor
      · rintro (rfl | ⟨h1, h2⟩)
        · exact ⟨Or.inl rfl, ha⟩
        · exact ⟨Or.inr h1, fun hs => h2 (Or.inr hs)⟩
      · rintro ⟨rfl | h1, h2⟩
        · exact Or.inl rfl
        · by_cases hsa : s = a
          · exact Or.inl hsa
          · exact Or.inr ⟨h1, fun hin => hin.elim hsa h2⟩

theorem mem_uniqueFirst {α : Type} [DecidableEq α] (l : List α) (s : α) :
    s ∈ uniqueFirst l ↔ s ∈ l := by
  unfold uniqueFirst
  rw [mem_uniqueFirstAux]
  simp

theorem check_all_foldl (symbols : List String) (ms : List String) :
    check_all_data_received (ms.foldl markReceived (set_symbols_to_track symbols)) = true
      ↔ ∀ s ∈ symbols, s ∈ ms := by
  rw [foldl_markReceived]
  unfold check_all_data_received set_symbols_to_track
  simp only [List.map_map, List.all_eq_true, List.mem_map, Function.comp]
  constructor
  · intro h s hs
    have := h ((fun p => (p.1, p.2 || decide (p.1 ∈ ms))) ((fun t => (t, false)) s))
      ⟨s, (mem_uniqueFirst symbols s).mpr hs, rfl⟩
    simpa using this
  · rintro h x ⟨s, hs, rfl⟩
    have := h s ((mem_uniqueFirst symbols s).mp hs)
    simpa using this

theorem foldl_processFeedData (events : List (List String)) (st : List (String × Bool)) :
    events.foldl processFeedData st
      = ((events.map quoteSymbols).flatten).foldl markReceived st := by
  induction events generalizing st with
  | nil => rfl
  | cons ev evs ih =>
    simp only [List.foldl_cons, List.map_cons, List.flatten_cons, List.foldl_append]
    exact ih (processFeedData st ev)

/-- C1: for every requested symbol set and every sequence of FEED_DATA
Quote payloads, check_all_data_received is true exactly when every
requested symbol has appeared at a symbol position of some payload
(false until the last requested symbol is seen, true from then on), and
marking a symbol outside the originally requested set leaves the
tracking state unchanged. -/
theorem C1_completion_tracking (symbols : List String) (events : List (List String)) :
    (check_all_data_received (events.foldl processFeedData (set_symbols_to_track symbols)) = true
      ↔ ∀ s ∈ symbols, ∃ ev ∈ events, s ∈ quoteSymbols ev)
    ∧ ∀ st s, (∀ p ∈ st, p.1 ≠ s) → markReceived st s = st := by
  constructor
  · rw [foldl_processFeedData, check_all_foldl]
    constructor
    · intro h s hs
      have hmem := h s hs
      rw [List.mem_flatten] at hmem
      obtain ⟨l, hl, hsl⟩ := hmem
      rw [List.mem_map] at hl
      obtain ⟨ev, hev, rfl⟩ := hl
      exact ⟨ev, hev, hsl⟩
    · intro h s hs
      obtain ⟨ev, hev, hsev⟩ := h s hs
      exact List.mem_flatten.mpr ⟨quoteSymbols ev, List.mem_map.mpr ⟨ev, hev, rfl⟩, hsev⟩
  · intro st s h
    unfold markReceived
    have hany : st.any (fun p => p.1 = s) = false := by
      rw [List.any_eq_false]
      intro p hp
      simpa using h p hp
    simp [hany]

theorem C1_completion_tracking_witness :
    ((check_all_data_received ([["Quote", "A", "1", "1", "1", "1"]].foldl processFeedData
          (set_symbols_to_track ["A"])) = true
        ↔ ∀ s ∈ ["A"], ∃ ev ∈ [["Quote", "A", "1", "1", "1", "1"]], s ∈ quoteSymbols ev)
      ∧ ∀ st s, (∀ p ∈ st, p.1 ≠ s) → markReceived st s = st)
    ∧ markReceived [("A", false)] "B" = [("A", false)] :=
  ⟨C1_completion_tracking ["A"] [["Quote", "A", "1", "1", "1", "1"]],
   (C1_completion_tracking [] []).2 [("A", false)] "B" (by decide)⟩

theorem parseItem_length {α : Type} (ft : String) :
    ∀ md : List α, (parseItem ft md).length = md.length / 6
  | [] => by simp [parseItem]
  | [_] => by simp [parseItem]
  | [_, _] => by simp [parseItem]
  | [_, _, _] => by simp [parseItem]
  | [_, _, _, _] => by simp [parseItem]
  | [_, _, _, _, _] => by simp [parseItem]
  | a :: b :: c :: d :: e :: f :: rest => by
      have ih := parseItem_length ft rest
      simp only [parseItem, List.length_cons, ih]
      omega

theorem parseItem_short {α : Type} (ft : String) (md : List α) (h : md.length < 6) :
    parseItem ft md = [] := by
  match md with
  | [] => rfl
  | [_] => rfl
  | [_, _] => rfl
  | [_, _, _] => rfl
  | [_, _, _, _] => rfl
  | [_, _, _, _, _] => rfl
  | _ :: _ :: _ :: _ :: _ :: _ :: _ => simp at h; omega

theorem drop_dup_subset {α : Type} [DecidableEq α] :
    ∀ rs : List (QuoteRow α), ∀ r ∈ drop_duplicates_keep_last rs, r ∈ rs := by
  intro rs
  induction rs with
  | nil => intro r h; exact absurd h (by simp [drop_duplicates_keep_last])
  | cons t rest ih =>
    intro r h
    unfold drop_duplicates_keep_last at h
    by_cases hdup : rest.any (fun u => u.symbol = t.symbol)
    · rw [if_pos hdup] at h
      exact List.mem_cons_of_mem t (ih r h)
    · rw [if_neg hdup] at h
      rcases List.mem_cons.mp h with h1 | h1
      · exact h1 ▸ List.mem_cons_self t rest
      · exact List.mem_cons_of_mem t (ih r h1)

theorem drop_dup_filter {α : Type} [DecidableEq α] (s : α) :
    ∀ rs : List (QuoteRow α),
      (drop_duplicates_keep_last rs).filter (fun r => r.symbol = s)
        = ((rs.filter (fun r => r.symbol = s)).getLast?).toList := by
  intro rs
  induction rs with
  | nil => rfl
  | cons r rest ih =>
    unfold drop_duplicates_keep_last
    by_cases hdup : rest.any (fun t => t.symbol = r.symbol)
    · rw [if_pos hdup]
      by_cases hs : r.symbol = s
      · have hne : rest.filter (fun t => t.symbol = s) ≠ [] := by
          rw [List.any_eq_true] at hdup
          obtain ⟨t, ht, hts⟩ := hdup
          simp only [decide_eq_true_eq] at hts
          intro hempty
          have hmem : t ∈ rest.filter (fun u => u.symbol = s) :=
            List.mem_filter.mpr ⟨ht, by simp [hts, hs]⟩
          rw [hempty] at hmem
          exact absurd hmem (List.not_mem_nil t)
        rw [ih, List.filter_cons_of_pos (by simp [hs])]
        match hrf : rest.filter (fun t => t.symbol = s) with
        | [] => exact absurd hrf hne
        | u :: us => rw [hrf, List.getLast?_cons_cons]
      · rw [ih, List.filter_cons_of_neg (by simp [hs])]
    · rw [if_neg hdup]
      rw [Bool.not_eq_true, List.any_eq_false] at hdup
      by_cases hs : r.symbol = s
      · have hrf : rest.filter (fun t => t.symbol = s) = [] := by
          rw [List.filter_eq_nil_iff]
          intro t ht
          have := hdup t ht
          simp only [decide_eq_true_eq] at this ⊢
          rw [hs] at this
          exact this
        rw [List.filter_cons_of_pos (by simp [hs]), ih, hrf,
          List.filter_cons_of_pos (by simp [hs]), hrf]
        rfl
      · rw [List.filter_cons_of_neg (by simp [hs]), ih,
          List.filter_cons_of_neg (by simp [hs])]

theorem drop_dup_pairwise {α : Type} [DecidableEq α] :
    ∀ rs : List (QuoteRow α),
      List.Pairwise (fun r t => r.symbol ≠ t.symbol) (drop_duplicates_keep_last rs) := by
  intro rs
  induction rs with
  | nil => exact List.Pairwise.nil
  | cons r rest ih =>
    unfold drop_duplicates_keep_last
    by_cases hdup : rest.any (fun t => t.symbol = r.symbol)
    · rw [if_pos hdup]; exact ih
    · rw [if_neg hdup]
      refine List.Pairwise.cons ?_ ih
      intro t ht
      rw [Bool.not_eq_true, List.any_eq_false] at hdup
      have := hdup t (drop_dup_subset rest t ht)
      simp only [decide_eq_true_eq] at this
      intro hc
      exact this hc.symm

/-- C3: the decoder emits exactly one row per complete 6-element stride
of the flat payload, in order; a trailing partial stride (fewer than 6
elements) is dropped; and after deduplication exactly the most recently
decoded row survives for each streamer-symbol (last value wins), with no
duplicate symbols in the output. -/
theorem C3_parse_market_data {α : Type} [DecidableEq α] (ft : String)
    (a b c d e f : α) (rest md : List α)
    (items : List (String × List α)) (s : α) :
    parseItem ft (a :: b :: c :: d :: e :: f :: rest)
        = ⟨ft, a, b, c, d, e, f⟩ :: parseItem ft rest
    ∧ (md.length < 6 → parseItem ft md = [])
    ∧ (parseItem ft md).length = md.length / 6
    ∧ (parse_market_data items).filter (fun r => r.symbol = s)
        = ((((items.map (fun it => parseItem it.1 it.2)).flatten).filter
              (fun r => r.symbol = s)).getLast?).toList
    ∧ List.Pairwise (fun r t => r.symbol ≠ t.symbol) (parse_market_data items) :=
  ⟨rfl, parseItem_short ft md, parseItem_length ft md,
   drop_dup_filter s _, drop_dup_pairwise _⟩

theorem C3_parse_market_data_witness :
    (parseItem "Quote" ["Q", "A", "1", "2", "3", "4"]
        = [⟨"Quote", "Q", "A", "1", "2", "3", "4"⟩]
    ∧ (["x", "y"].length < 6 → parseItem "Quote" ["x", "y"] = [])
    ∧ (parseItem "Quote" ["x", "y"]).length = ["x", "y"].length / 6
    ∧ (parse_market_data [("Quote", ["Q", "A", "1", "2", "3", "4", "Q", "A", "5", "6", "7", "8"])]).filter
          (fun r => r.symbol = "A")
        = (((([("Quote", ["Q", "A", "1", "2", "3", "4", "Q", "A", "5", "6", "7", "8"])].map
              (fun it => parseItem it.1 it.2)).flatten).filter
              (fun r => r.symbol = "A")).getLast?).toList
    ∧ List.Pairwise (fun r t => r.symbol ≠ t.symbol)
        (parse_market_data [("Quote", ["Q", "A", "1", "2", "3", "4", "Q", "A", "5", "6", "7", "8"])]))
    ∧ parse_market_data [("Quote", ["Q", "A", "1", "2", "3", "4", "Q", "A", "5", "6", "7", "8"])]
        = [⟨"Quote", "Q", "A", "5", "6", "7", "8"⟩] :=
  ⟨by
    have h := C3_parse_market_data (α := String) "Quote" "Q" "A" "1" "2" "3" "4" []
      ["x", "y"] [("Quote", ["Q", "A", "1", "2", "3", "4", "Q", "A", "5", "6", "7", "8"])] "A"
    exact h,
   by decide⟩

/-- C2: with an empty requested-symbol set, check_all_data_received is
vacuously true at initialization, yet the session does not close: the
completion check runs only inside the FEED_DATA branch of on_message, so
an entire handshake with no FEED_DATA message leaves the connection open
and never emits the close call (the session blocks rather than closing
immediately). -/
theorem C2_empty_set_vacuous_but_no_close :
    check_all_data_received (mkClient 3 []).symbols_to_track = true
    ∧ (runSession (mkClient 3 [])
        [Msg.authState "UNAUTHORIZED", Msg.authState "AUTHORIZED",
         Msg.channelOpened 3, Msg.feedConfig 3]).1.closed = false
    ∧ Out.closeCall ∉ (runSession (mkClient 3 [])
        [Msg.authState "UNAUTHORIZED", Msg.authState "AUTHORIZED",
         Msg.channelOpened 3, Msg.feedConfig 3]).2
    ∧ (runSession (mkClient 3 [])
        [Msg.authState "UNAUTHORIZED", Msg.authState "AUTHORIZED",
         Msg.channelOpened 3, Msg.feedConfig 3, Msg.feedData 3 "Quote" []]).1.closed = true := by
  decide

/-- C8 counterexample: the handler has no sent-once guard, so a
connection on which the server sends AUTH_STATE UNAUTHORIZED twice makes
the client send the AUTH control message twice. -/
theorem C8_counterexample_double_auth :
    ((runSession (mkClient 3 ["A"])
        [Msg.authState "UNAUTHORIZED", Msg.authState "UNAUTHORIZED"]).2.count Out.authMsg) = 2 := by
  decide

theorem on_message_state_of_not_feedData (st : WSState) (m : Msg)
    (h : isFeedDataFor st.channel_number m = false) : (on_message st m).1 = st := by
  cases m with
  | authState s =>
      simp only [on_message]
      by_cases h1 : s = "UNAUTHORIZED"
      · simp [h1]
      · by_cases h2 : s = "AUTHORIZED" <;> simp [h1, h2]
  | channelOpened ch => by_cases hc : ch = st.channel_number <;> simp [on_message, hc]
  | feedConfig ch => by_cases hc : ch = st.channel_number <;> simp [on_message, hc]
  | feedData ch ft md =>
      simp only [isFeedDataFor, decide_eq_false_iff_not] at h
      simp [on_message, h]
  | keepalive => rfl

theorem on_message_auth_count (st : WSState) (m : Msg) :
    ((on_message st m).2.count Out.authMsg) = if isUnauthorizedMsg m then 1 else 0 := by
  cases m with
  | authState s =>
      simp only [on_message, isUnauthorizedMsg]
      by_cases h1 : s = "UNAUTHORIZED"
      · simp [h1]
      · by_cases h2 : s = "AUTHORIZED" <;> simp [h1, h2, List.count_cons]
  | channelOpened ch =>
      by_cases hc : ch = st.channel_number <;> simp [on_message, isUnauthorizedMsg, hc, List.count_cons]
  | feedConfig ch =>
      by_cases hc : ch = st.channel_number <;> simp [on_message, isUnauthorizedMsg, hc, List.count_cons]
  | feedData ch ft md =>
      simp only [on_message, isUnauthorizedMsg]
      by_cases hc : ch = st.channel_number
      · simp only [hc, if_true]
        split
        · split <;> simp [List.count_cons]
        · split <;> simp [List.count_cons]
      · simp [hc]
  | keepalive => rfl

/-- C8 amended: the session sends one AUTH message in response to each
AUTH_STATE UNAUTHORIZED received, not exactly once per connection: every
single message elicits AUTH exactly when it is an UNAUTHORIZED auth
state, and over any inbound sequence free of FEED_DATA for the session
channel (so the session stays open throughout) the number of AUTH sends
equals the number of UNAUTHORIZED messages received. -/
theorem C8_auth_per_unauthorized :
    (∀ st m, ((on_message st m).2.count Out.authMsg) = if isUnauthorizedMsg m then 1 else 0)
    ∧ ∀ st (msgs : List Msg), st.closed = false →
        (∀ m ∈ msgs, isFeedDataFor st.channel_number m = false) →
        ((runSession st msgs).2.count Out.authMsg) = msgs.countP isUnauthorizedMsg := by
  refine ⟨on_message_auth_count, ?_⟩
  intro st msgs
  induction msgs generalizing st with
  | nil => intro _ _; simp [runSession]
  | cons m ms ih =>
    intro hopen hnofd
    simp only [runSession, hopen, Bool.false_eq_true, if_false]
    have hst : (on_message st m).1 = st := on_message_state_of_not_feedData st m (hnofd m (by simp))
    rw [List.count_append, on_message_auth_count, hst,
      ih st hopen (fun x hx => hnofd x (by simp [hx])), List.countP_cons]
    by_cases hm : isUnauthorizedMsg m
    · simp only [hm, if_true]
      omega
    · simp only [hm, Bool.false_eq_true, if_false]
      omega

theorem C8_auth_per_unauthorized_witness :
    (((on_message (mkClient 3 ["A"]) (Msg.authState "UNAUTHORIZED")).2.count Out.authMsg)
        = if isUnauthorizedMsg (Msg.authState "UNAUTHORIZED") then 1 else 0)
    ∧ ((runSession (mkClient 3 ["A"])
        [Msg.authState "UNAUTHORIZED", Msg.keepalive, Msg.authState "UNAUTHORIZED"]).2.count Out.authMsg)
        = [Msg.authState "UNAUTHORIZED", Msg.keepalive,
           Msg.authState "UNAUTHORIZED"].countP isUnauthorizedMsg :=
  ⟨C8_auth_per_unauthorized.1 (mkClient 3 ["A"]) (Msg.authState "UNAUTHORIZED"),
   C8_auth_per_unauthorized.2 (mkClient 3 ["A"])
     [Msg.authState "UNAUTHORIZED", Msg.keepalive, Msg.authState "UNAUTHORIZED"]
     (by decide) (by decide)⟩

theorem optionTypeOf_valid (sym : String) :
    optionTypeOf sym = "call" ∨ optionTypeOf sym = "put" := by
  unfold optionTypeOf
  by_cases h : containsCmarker sym
  · exact Or.inl (if_pos h)
  · exact Or.inr (if_neg h)

/-- C9: the ValueError branch of BSM.price and BSM.delta fires for every
option_type other than call and put, but the pipeline call sites always
pass optionTypeOf of the row symbol, which is call or put, so under
pipeline use both computations always return a value and the error
branch is unreachable. -/
theorem C9_option_type_error_unreachable (P : Prims) (S K T r sigma : ℚ)
    (sym t : String) :
    (BSM.price P S K T r sigma (optionTypeOf sym)).isOk = true
    ∧ (BSM.delta P S K T r sigma (optionTypeOf sym)).isOk = true
    ∧ (t ≠ "call" → t ≠ "put" →
        BSM.price P S K T r sigma t
            = .error "ValueError: Invalid option type. Use call or put."
        ∧ BSM.delta P S K T r sigma t
            = .error "ValueError: Invalid option type. Use call or put.")
    ∧ ∀ Sq sgq, (BSM.deltaMissing P Sq K T r sgq (optionTypeOf sym)).isOk = true := by
  refine ⟨?_, ?_, ?_, ?_⟩
  · rcases optionTypeOf_valid sym with h | h <;> simp [BSM.price, h, Except.isOk, Except.toBool]
  · rcases optionTypeOf_valid sym with h | h <;> simp [BSM.delta, h, Except.isOk, Except.toBool]
  · intro h1 h2
    constructor
    · simp [BSM.price, h1, h2]
    · simp [BSM.delta, h1, h2]
  · intro Sq sgq
    match Sq, sgq with
    | some s, some sg =>
        rcases optionTypeOf_valid sym with h | h <;>
          simp [BSM.deltaMissing, BSM.delta, h, Except.isOk, Except.toBool, Except.map]
    | some s, none =>
        simp [BSM.deltaMissing, optionTypeOf_valid sym, Except.isOk, Except.toBool]
    | none, some sg =>
        simp [BSM.deltaMissing, optionTypeOf_valid sym, Except.isOk, Except.toBool]
    | none, none =>
        simp [BSM.deltaMissing, optionTypeOf_valid sym, Except.isOk, Except.toBool]

theorem C9_option_type_error_unreachable_witness :
    (BSM.price ⟨id, id, id, id⟩ 1 1 1 0 1 (optionTypeOf "XC")).isOk = true
    ∧ BSM.price ⟨id, id, id, id⟩ 1 1 1 0 1 "straddle"
        = .error "ValueError: Invalid option type. Use call or put." :=
  ⟨(C9_option_type_error_unreachable ⟨id, id, id, id⟩ 1 1 1 0 1 "XC" "straddle").1,
   ((C9_option_type_error_unreachable ⟨id, id, id, id⟩ 1 1 1 0 1 "XC" "straddle").2.2.1
     (by decide) (by decide)).1⟩

theorem brentq_error_of_noSignChange (f : ℚ → Except String ℚ) (a b : ℚ)
    (h : noSignChange f a b = true) :
    BSM.brentq f a b = .error "ValueError: f a and f b must have different signs" := by
  unfold noSignChange at h
  match hfa : f a, hfb : f b with
  | .ok fa, .ok fb =>
      rw [hfa, hfb] at h
      simp only [decide_eq_true_eq] at h
      simp [BSM.brentq, hfa, hfb, Except.instMonad, Except.bind, h]
  | .ok fa, .error e => rw [hfa, hfb] at h; exact absurd h (by simp)
  | .error e, _ => rw [hfa] at h; exact absurd h (by simp)

/-- C4: when the root-finder cannot bracket a sign change of the
objective over (1e-6, 1], the ValueError is caught and the implied
volatility of that row is missing, and the per-row pass computes every
other row unchanged (it is never halted). -/
theorem C4_unbracketable_root_is_missing (P : Prims) (r : JoinedRow) (m S : ℚ)
    (h1 : mid_option r = some m) (h2 : mid_future r = some S)
    (h3 : noSignChange
        (BSM.objective P m S r.strike_price r.T RISK_FREE_RATE (optionTypeOf r.symbol))
        (1 / 1000000) 1 = true) :
    OptionDataProcessor.iv_raw P r = none
    ∧ OptionDataProcessor.implied_volatility_pct P r = none
    ∧ ∀ rows1 rows2,
        OptionDataProcessor.calculate_implied_volatility P (rows1 ++ r :: rows2)
          = OptionDataProcessor.calculate_implied_volatility P rows1
            ++ none :: OptionDataProcessor.calculate_implied_volatility P rows2 := by
  have hiv : OptionDataProcessor.iv_raw P r = none := by
    unfold OptionDataProcessor.iv_raw BSM.implied_volatility
    rw [h1, h2]
    have hbe := brentq_error_of_noSignChange _ _ _ h3
    rw [one_div] at hbe
    simp [hbe]
  refine ⟨hiv, ?_, ?_⟩
  · unfold OptionDataProcessor.implied_volatility_pct
    rw [hiv]
    rfl
  · intro rows1 rows2
    unfold OptionDataProcessor.calculate_implied_volatility
    rw [List.map_append, List.map_cons]
    rw [show OptionDataProcessor.implied_volatility_pct P r = none by
      unfold OptionDataProcessor.implied_volatility_pct
      rw [hiv]
      rfl]

theorem delta_row_of_missing_iv (P : Prims) (r : JoinedRow)
    (h : OptionDataProcessor.implied_volatility_pct P r = none) :
    OptionDataProcessor.delta_row P r = .ok none := by
  unfold OptionDataProcessor.delta_row
  rw [h]
  rcases optionTypeOf_valid r.symbol with ho | ho <;>
    cases hmf : mid_future r <;>
      simp [BSM.deltaMissing, ho, Except.map, Option.map]

/-- C6 amended: for every row, a missing stored implied volatility gives
a missing delta, and a present stored implied volatility v (the
percentage rounded to one decimal place) gives delta equal to the spec
formula evaluated at sigma = v / 100 — the rounded stored volatility,
not the raw root — rounded to two decimals, call or put selected by the
C marker in the last ten characters of the symbol. -/
theorem C6_delta_from_stored_iv (P : Prims) (r : JoinedRow) :
    (OptionDataProcessor.implied_volatility_pct P r = none →
        OptionDataProcessor.delta_row P r = .ok none)
    ∧ ∀ v S, OptionDataProcessor.implied_volatility_pct P r = some v →
        mid_future r = some S →
        OptionDataProcessor.delta_row P r
          = .ok (some (roundTo 2
              (specDelta P S r.strike_price r.T (v / 100) (containsCmarker r.symbol)))) := by
  refine ⟨delta_row_of_missing_iv P r, ?_⟩
  intro v S hv hS
  unfold OptionDataProcessor.delta_row
  rw [hv, hS]
  unfold BSM.deltaMissing optionTypeOf
  by_cases hC : containsCmarker r.symbol
  · simp only [hC, if_true, Option.map_some']
    simp [BSM.delta, specDelta, RISK_FREE_RATE, Except.map, zero_add]
  · simp only [hC, Bool.false_eq_true, if_false, Option.map_some']
    simp [BSM.delta, specDelta, RISK_FREE_RATE, Except.map, zero_add]

/-- C7: a leg with a missing or non-numeric bid or ask has a missing
mid; a missing mid on either leg propagates to missing implied
volatility; a missing implied volatility propagates to missing delta and
missing bc_delta for an option position; and a row with missing bc_delta
is excluded from every per-currency total. -/
theorem C7_missing_leg_propagates (P : Prims) (r : JoinedRow) :
    ((to_numeric r.bidPrice = none ∨ to_numeric r.askPrice = none) → mid_option r = none)
    ∧ ((to_numeric r.bidPrice_future = none ∨ to_numeric r.askPrice_future = none) →
        mid_future r = none)
    ∧ ((mid_option r = none ∨ mid_future r = none) →
        OptionDataProcessor.iv_raw P r = none
        ∧ OptionDataProcessor.implied_volatility_pct P r = none)
    ∧ (OptionDataProcessor.implied_volatility_pct P r = none →
        r.instrument_type = "Future Option" →
        (r.quantity_direction = "Long" ∨ r.quantity_direction = "Short") →
        OptionDataProcessor.delta_row P r = .ok none
        ∧ OptionDataProcessor.bc_delta P r = .ok none)
    ∧ (OptionDataProcessor.bc_delta P r = .ok none →
        ∀ rows c, OptionDataProcessor.ccy_total P (r :: rows) c
          = OptionDataProcessor.ccy_total P rows c) := by
  refine ⟨?_, ?_, ?_, ?_, ?_⟩
  · intro h
    rcases h with h | h
    · simp [mid_option, midPrice, h]
    · cases hb : to_numeric r.bidPrice <;> simp [mid_option, midPrice, h, hb]
  · intro h
    rcases h with h | h
    · simp [mid_future, midPrice, h]
    · cases hb : to_numeric r.bidPrice_future <;> simp [mid_future, midPrice, h, hb]
  · intro h
    have hiv : OptionDataProcessor.iv_raw P r = none := by
      unfold OptionDataProcessor.iv_raw BSM.implied_volatility
      rcases h with h | h
      · rw [h]
      · rw [h]
        cases hmo : mid_option r <;> rfl
    exact ⟨hiv, by unfold OptionDataProcessor.implied_volatility_pct; rw [hiv]; rfl⟩
  · intro hiv hFO hdir
    have hd := delta_row_of_missing_iv P r hiv
    refine ⟨hd, ?_⟩
    have hpos : OptionDataProcessor.pos_delta P r = .ok none := by
      rcases hdir with hdir | hdir <;>
        simp [OptionDataProcessor.pos_delta, hd, hFO, hdir, Except.instMonad,
          Except.bind, Option.map, pure, Except.pure]
    simp [OptionDataProcessor.bc_delta, OptionDataProcessor.pos_delta_merged, hFO,
      hpos, Except.instMonad, Except.bind, pure, Except.pure]
  · intro hbc rows c
    conv_lhs => rw [OptionDataProcessor.ccy_total]
    rw [hbc]
    cases ht : OptionDataProcessor.ccy_total P rows c with
    | error e => simp [Except.instMonad, Except.bind, ht]
    | ok t =>
        by_cases hc : OptionDataProcessor.assign_ccy r = some c <;>
          simp [Except.instMonad, Except.bind, hc, ht, pure, Except.pure]

/-- C10: every subscribed symbol is a real value of one of the two
streamer-symbol columns — never the empty string, a null, or the
literal string None — and marking exactly the subscribed symbols
completes the tracker, so a position lacking an option streamer symbol
cannot block completion. -/
theorem C10_no_phantom_subscriptions (c1 c2 : List (Option String)) :
    (∀ s ∈ get_streamer_symbols c1 c2, s ≠ "" ∧ s ≠ "None" ∧ (some s ∈ c1 ∨ some s ∈ c2))
    ∧ check_all_data_received
        ((get_streamer_symbols c1 c2).foldl markReceived
          (set_symbols_to_track (get_streamer_symbols c1 c2))) = true := by
  constructor
  · intro s hs
    unfold get_streamer_symbols at hs
    rw [List.mem_filterMap] at hs
    obtain ⟨o, ho, hfo⟩ := hs
    match o with
    | none => exact absurd hfo (by simp)
    | some t =>
        have hfo' : (if t ≠ "" ∧ t ≠ "None" then some t else none) = some s := hfo
        by_cases hc : t ≠ "" ∧ t ≠ "None"
        · rw [if_pos hc] at hfo'
          have hts : t = s := by simpa using hfo'
          subst hts
          refine ⟨hc.1, hc.2, ?_⟩
          rcases List.mem_append.mp ho with hm | hm
          · exact Or.inl ((mem_uniqueFirst c1 (some t)).mp hm)
          · exact Or.inr ((mem_uniqueFirst c2 (some t)).mp hm)
        · rw [if_neg hc] at hfo'
          exact absurd hfo' (by simp)
  · rw [check_all_foldl]
    intro s hs
    exact hs

theorem C10_no_phantom_subscriptions_witness :
    ((("A" : String) ≠ "" ∧ ("A" : String) ≠ "None"
        ∧ (some "A" ∈ [some "A", none] ∨ some "A" ∈ [some "None", some ""]))
      ∧ get_streamer_symbols [some "A", none] [some "None", some ""] = ["A"])
    ∧ check_all_data_received
        ((get_streamer_symbols [some "A", none] [some "None", some ""]).foldl markReceived
          (set_symbols_to_track
            (get_streamer_symbols [some "A", none] [some "None", some ""]))) = true :=
  ⟨⟨(C10_no_phantom_subscriptions [some "A", none] [some "None", some ""]).1 "A" (by decide),
    by decide⟩,
   (C10_no_phantom_subscriptions [some "A", none] [some "None", some ""]).2⟩

section RatKernelEval

attribute [local semireducible] Rat.add Rat.sub Rat.mul Rat.inv Rat.ofScientific

theorem C4_unbracketable_root_is_missing_witness :
    OptionDataProcessor.iv_raw P1 rowW = none
    ∧ OptionDataProcessor.implied_volatility_pct P1 rowW = none
    ∧ OptionDataProcessor.calculate_implied_volatility P1 ([] ++ rowW :: [])
        = OptionDataProcessor.calculate_implied_volatility P1 []
          ++ none :: OptionDataProcessor.calculate_implied_volatility P1 [] :=
  have h := C4_unbracketable_root_is_missing P1 rowW 1 1 (by decide) (by decide) (by decide)
  ⟨h.1, h.2.1, h.2.2 [] []⟩

/-- C6 counterexample: under explicit primitives and a concrete row the
solved root is about 0.13002; the pipeline stores 13.0 percent, feeds
sigma = 0.130 to the delta formula and reports 0.40, while the delta
computed from the solved sigma itself, as the claim states it, is 0.41. -/
theorem C6_counterexample_raw_sigma :
    OptionDataProcessor.delta_row P0 row0 = .ok (some (40 / 100))
    ∧ (OptionDataProcessor.iv_raw P0 row0).map
        (fun sg => roundTo 2
          (specDelta P0 1 1 1 sg (containsCmarker row0.symbol)))
        = some (41 / 100)
    ∧ OptionDataProcessor.delta_row P0 row0
        ≠ .ok ((OptionDataProcessor.iv_raw P0 row0).map
            (fun sg => roundTo 2
              (specDelta P0 1 1 1 sg (containsCmarker row0.symbol)))) := by
  refine ⟨by decide, by decide, ?_⟩
  intro hcontra
  have h1 : OptionDataProcessor.delta_row P0 row0 = .ok (some (40 / 100)) := by decide
  have h2 : (OptionDataProcessor.iv_raw P0 row0).map
      (fun sg => roundTo 2
        (specDelta P0 1 1 1 sg (containsCmarker row0.symbol))) = some (41 / 100) := by decide
  rw [h1, h2] at hcontra
  exact absurd hcontra (by decide)

theorem C6_delta_from_stored_iv_witness :
    OptionDataProcessor.delta_row P0 row0
      = .ok (some (roundTo 2
          (specDelta P0 1 1 1 ((13 : ℚ) / 100) (containsCmarker row0.symbol)))) :=
  (C6_delta_from_stored_iv P0 row0).2 13 1 (by decide) (by decide)

theorem C7_missing_leg_propagates_witness :
    mid_option row1 = none
    ∧ OptionDataProcessor.implied_volatility_pct P1 row1 = none
    ∧ OptionDataProcessor.delta_row P1 row1 = .ok none
    ∧ OptionDataProcessor.bc_delta P1 row1 = .ok none
    ∧ OptionDataProcessor.ccy_total P1 [row1] "6E"
        = OptionDataProcessor.ccy_total P1 [] "6E" :=
  have h := C7_missing_leg_propagates P1 row1
  have hmid : mid_option row1 = none := h.1 (Or.inl (by decide))
  have hiv : OptionDataProcessor.implied_volatility_pct P1 row1 = none :=
    (h.2.2.1 (Or.inl hmid)).2
  have hdb := h.2.2.2.1 hiv (by decide) (Or.inl (by decide))
  ⟨hmid, hiv, hdb.1, hdb.2, h.2.2.2.2 hdb.2 [] "6E"⟩

end RatKernelEval

end TTVol
